import Mathlib

/-!
# barry: account and transaction reports over a banking API

A shallow embedding of `internal/mercury/client.go` (the HTTP client) and of
`cmd/barry/barry.go` (the `spend` and `revenue` commands with their
filter/aggregate pipeline), followed by the properties proved about them.

Conventions of the embedding

* Go `float64` amounts are values of a type `F` with the operations the code
  uses on them: addition, the constant `0` and the decidable test `<`.  The
  definitions and the properties that do no arithmetic reasoning hold for every
  such `F`, IEEE doubles included, whose sums round.  Properties stated for
  amounts taken as exact numbers are proved at `F := ℚ`.
* A Go `map[string]V` is an association list `GoMap V` read with `GoMap.get`
  and written with `GoMap.set`; two maps are the same mapping when they agree
  at every key (`GoMap.Same`).  Go leaves the iteration order of a map
  unspecified; the association list fixes one order (first insertion).
* A Go `(value, error)` result is `Except String value`, the string being the
  error message.  A nil pointer field is `none`.
* `log.Fatalf` ends the run: the run record carries the message in `fatal`.
* Library calls whose code is outside the repository (`http.NewRequest`,
  `client.Do`, `json.Unmarshal`, `url.Values.Encode`, `time.Parse`) are
  parameters of the functions that call them.
-/

set_option linter.unusedVariables false

/-! ## Go maps -/

/-- Association-list model of a Go map with string keys. -/
abbrev GoMap (β : Type) := List (String × β)

namespace GoMap

/-- Map read `m[k]` with the comma-ok result: `none` when the key is absent. -/
def get {β : Type} : GoMap β → String → Option β
  | [], _ => none
  | (k', v) :: m, k => if k' = k then some v else get m k

/-- Map write `m[k] = v`: overwrite the entry of `k` or add a new one. -/
def set {β : Type} : GoMap β → String → β → GoMap β
  | [], k, v => [(k, v)]
  | (k', v') :: m, k, v => if k' = k then (k, v) :: m else (k', v') :: set m k v

/-- Two association lists denote the same mapping. -/
def Same {β : Type} (m₁ m₂ : GoMap β) : Prop := ∀ k, m₁.get k = m₂.get k

/-- Negate every value of a mapping. -/
def neg {F : Type} [Neg F] (m : GoMap F) : GoMap F := m.map (fun kv => (kv.1, -kv.2))

end GoMap

/-! ## `strings.Split` -/

namespace strings

/-- Pieces of a character list between occurrences of `sep`. -/
def splitChars (sep : Char) : List Char → List (List Char)
  | [] => [[]]
  | c :: cs =>
    if c = sep then [] :: splitChars sep cs
    else
      match splitChars sep cs with
      | [] => [[c]]
      | p :: ps => (c :: p) :: ps

/-- Go `strings.Split(s, sep)` for a one-character separator (the commands
always pass `","`): the substrings between separators, `n + 1` of them when
`sep` occurs `n` times. -/
def Split (s : String) (sep : Char) : List String :=
  (splitChars sep s.toList).map String.mk

end strings

/-! ## `internal/mercury`: the records -/

namespace mercury

/-- The `Config` record of `client.go`. -/
structure Config where
  APIKey : String
  deriving DecidableEq, Repr

/-- The `Account` record of `client.go` (string and balance fields); `F` is the
type of `float64` values. -/
structure Account (F : Type) where
  ID : String
  Name : String
  Status : String
  Kind : String
  AvailableBalance : F
  CurrentBalance : F
  deriving DecidableEq

/-- The `Transaction` record of `client.go`.  The nested detail records are
passed through untouched by every function modelled here and are left out;
`F` is the type of `float64` values. -/
structure Transaction (F : Type) where
  Amount : F
  CounterpartyName : String
  ID : String
  Kind : String
  Status : String
  deriving DecidableEq

/-- The `AccountResponse` record of `client.go`. -/
structure AccountResponse (F : Type) where
  Accounts : List (Account F)
  deriving DecidableEq

/-- The `TransactionResponse` record of `client.go`. -/
structure TransactionResponse (F : Type) where
  Total : Int
  Transactions : List (Transaction F)
  deriving DecidableEq

/-- The `ListTransactionsParams` record of `client.go`; a nil pointer is `none`,
an `int32` is an integer (no arithmetic is done on it). -/
structure ListTransactionsParams where
  Limit : Option Int := none
  Offset : Option Int := none
  Status : Option String := none
  Start : Option String := none
  End : Option String := none
  Search : Option String := none
  deriving DecidableEq

end mercury

/-! ## `fmt.Sprintf` with the verb `%d` -/

namespace fmt

/-- Go `fmt.Sprintf("%d", n)`: the decimal numeral of an integer. -/
def decimal (n : Int) : String := toString n

end fmt

/-! ## `internal/mercury`: the client -/

namespace mercury

/-- The constant `apiBaseURL` of `client.go`. -/
def apiBaseURL : String := "https://api.mercury.com/api/v1/"

/-- An `http.Request` as the client builds it: method, URL and headers. -/
structure Request where
  Method : String
  URL : String
  Header : GoMap String

/-- An `http.Response` as the client reads it: the status code, the status
text (such as `404 Not Found`) and what `ioutil.ReadAll` yields on the body. -/
structure Response where
  StatusCode : Int
  Status : String
  Body : Except String String

/-- The two library calls the client makes to reach the network. -/
structure Transport where
  NewRequest : String → String → Except String Request
  Do : Request → Except String Response

/-- Go `req.Header.Set(key, value)`. -/
def Request.setHeader (req : Request) (key value : String) : Request :=
  { req with Header := req.Header.set key value }

/-- Go `url.Values`: a map from key to a list of values. -/
abbrev Values := GoMap (List String)

/-- Go `url.Values.Set(key, value)`: the key now has the single value. -/
def Values.Set (query : Values) (key value : String) : Values :=
  GoMap.set query key [value]

/-- The `ListAccounts` of `client.go`; `unmarshal` stands for `json.Unmarshal`
into an `AccountResponse`. -/
def ListAccounts {F : Type} (tr : Transport)
    (unmarshal : String → Except String (AccountResponse F))
    (config : Config) : Except String (AccountResponse F) :=
  match tr.NewRequest "GET" (apiBaseURL ++ "/accounts") with
  | .error err => .error err
  | .ok req =>
    let req := req.setHeader "Authorization" ("Bearer " ++ config.APIKey)
    match tr.Do req with
    | .error err => .error err
    | .ok resp =>
      if resp.StatusCode ≠ 200 then
        .error ("failed to fetch accounts: " ++ resp.Status)
      else
        match resp.Body with
        | .error err => .error err
        | .ok body =>
          match unmarshal body with
          | .error err => .error err
          | .ok accountResponse => .ok accountResponse

/-- Lines 221-239 of `ListTransactions`: the query values, one key for each
field of `params` that is not nil. -/
def transactionsQuery (params : ListTransactionsParams) : Values :=
  let query : Values := []
  let query := match params.Limit with
    | some v => query.Set "limit" (fmt.decimal v)
    | none => query
  let query := match params.Offset with
    | some v => query.Set "offset" (fmt.decimal v)
    | none => query
  let query := match params.Status with
    | some v => query.Set "status" v
    | none => query
  let query := match params.Start with
    | some v => query.Set "start" v
    | none => query
  let query := match params.End with
    | some v => query.Set "end" v
    | none => query
  let query := match params.Search with
    | some v => query.Set "search" v
    | none => query
  query

/-- Line 219 of `ListTransactions`: the transactions path of an account. -/
def transactionsPath (accountID : String) : String :=
  apiBaseURL ++ "/account/" ++ accountID ++ "/transactions"

/-- Lines 219-243 of `ListTransactions`: the request URL; `encode` stands for
`url.Values.Encode`. -/
def transactionsURL (encode : Values → String) (accountID : String)
    (params : ListTransactionsParams) : String :=
  let apiUrl := transactionsPath accountID
  let query := transactionsQuery params
  if query.length > 0 then apiUrl ++ "?" ++ encode query else apiUrl

/-- The `ListTransactions` of `client.go`; `encode` stands for
`url.Values.Encode` and `unmarshal` for `json.Unmarshal` into a
`TransactionResponse`. -/
def ListTransactions {F : Type} (tr : Transport) (encode : Values → String)
    (unmarshal : String → Except String (TransactionResponse F))
    (config : Config) (accountID : String) (params : ListTransactionsParams) :
    Except String (TransactionResponse F) :=
  let apiUrl := transactionsURL encode accountID params
  match tr.NewRequest "GET" apiUrl with
  | .error err => .error err
  | .ok req =>
    let req := req.setHeader "Authorization" ("Bearer " ++ config.APIKey)
    match tr.Do req with
    | .error err => .error err
    | .ok resp =>
      if resp.StatusCode ≠ 200 then
        .error ("failed to fetch transactions: " ++ resp.Status)
      else
        match resp.Body with
        | .error err => .error err
        | .ok body =>
          match unmarshal body with
          | .error err => .error err
          | .ok transactionResponse => .ok transactionResponse

end mercury

open mercury

/-! ## `cmd/barry`: filter, contains, aggregateByCounterparty and the pipelines -/

/-- The generic `filter` of `barry.go`: scan `ss` and append the elements that
pass `test`. -/
def filter {T : Type} (ss : List T) (test : T → Bool) : List T :=
  ss.foldl (fun ret s => if test s then ret ++ [s] else ret) []

/-- The `contains` of `barry.go`: linear search for `element`. -/
def contains : List String → String → Bool
  | [], _ => false
  | elem :: slice, element => if elem = element then true else contains slice element

/-- The `aggregateByCounterparty` of `barry.go`; `aggregate` is accepted and
not consulted.  The sums are formed with the addition of `F`, one amount at a
time: `txn.Amount + currentSpend`. -/
def aggregateByCounterparty {F : Type} [Add F] (txns : List (Transaction F))
    (aggregate : String) : GoMap F :=
  txns.foldl
    (fun spend txn =>
      match spend.get txn.CounterpartyName with
      | some currentSpend => spend.set txn.CounterpartyName (txn.Amount + currentSpend)
      | none => spend.set txn.CounterpartyName txn.Amount)
    []

/-- Lines 124-135 of `spendCmd`: the optional counterparty filter, the sign
filter `Amount < 0`, then `aggregateByCounterparty`. -/
def spendAggregate {F : Type} [Add F] [LT F] [OfNat F 0] [(a b : F) → Decidable (a < b)]
    (counterparty aggregate : String) (transactions : List (Transaction F)) : GoMap F :=
  let transactions :=
    if counterparty ≠ "" then
      let counterpartyFilter := strings.Split counterparty ','
      filter transactions (fun txn => contains counterpartyFilter txn.CounterpartyName)
    else transactions
  let transactions := filter transactions (fun txn => decide (txn.Amount < 0))
  aggregateByCounterparty transactions aggregate

/-- Lines 204-215 of `revenueCmd`: the optional counterparty filter, the sign
filter `Amount > 0`, then `aggregateByCounterparty`. -/
def revenueAggregate {F : Type} [Add F] [LT F] [OfNat F 0] [(a b : F) → Decidable (a < b)]
    (counterparty aggregate : String) (transactions : List (Transaction F)) : GoMap F :=
  let transactions :=
    if counterparty ≠ "" then
      let counterpartyFilter := strings.Split counterparty ','
      filter transactions (fun txn => contains counterpartyFilter txn.CounterpartyName)
    else transactions
  let transactions := filter transactions (fun txn => decide (txn.Amount > 0))
  aggregateByCounterparty transactions aggregate

/-! ## Specification vocabulary for the aggregation -/

/-- Amounts of the transactions of `txns` whose counterparty name is `k`, in
list order. -/
def amountsOf {F : Type} (txns : List (Transaction F)) (k : String) : List F :=
  (txns.filter (fun t => decide (t.CounterpartyName = k))).map (fun t => t.Amount)

/-- One step of the running sum of `aggregateByCounterparty`, seen at a single
key: the new amount is added in front of the sum held so far. -/
def addAmount {F : Type} [Add F] (cur : Option F) (a : F) : Option F :=
  match cur with
  | some c => some (a + c)
  | none => some a

/-- The sum of a list of amounts as `aggregateByCounterparty` forms it at one
key: nothing for the empty list, else the first amount, to which each later
amount is added in list order (`a₃ + (a₂ + a₁)`), with the addition of `F`. -/
def runningSum {F : Type} [Add F] (as : List F) : Option F :=
  as.foldl addAmount none

/-- Negate the amount of a transaction. -/
def negateAmount {F : Type} [Neg F] (t : Transaction F) : Transaction F :=
  { t with Amount := -t.Amount }

/-- The transactions that pass the counterparty step of the commands: all of
them when the flag is empty, else those named in the flag split on commas. -/
def counterpartyStep {F : Type} (counterparty : String)
    (transactions : List (Transaction F)) : List (Transaction F) :=
  if counterparty ≠ "" then
    transactions.filter (fun txn => contains (strings.Split counterparty ',') txn.CounterpartyName)
  else transactions

/-- The mapping of the spend side of C4: keep `Amount < 0`, aggregate, negate
every sum. -/
def negatedSpend {F : Type} [Add F] [Neg F] [LT F] [OfNat F 0]
    [(a b : F) → Decidable (a < b)] (L : List (Transaction F)) (aggregate : String) :
    GoMap F :=
  GoMap.neg (aggregateByCounterparty (filter L (fun txn => decide (txn.Amount < 0))) aggregate)

/-- The mapping of the revenue side of C4: keep `Amount > 0`, aggregate. -/
def plainRevenue {F : Type} [Add F] [LT F] [OfNat F 0] [(a b : F) → Decidable (a < b)]
    (L : List (Transaction F)) (aggregate : String) : GoMap F :=
  aggregateByCounterparty (filter L (fun txn => decide (txn.Amount > 0))) aggregate

/-! ## `cmd/barry`: the `spend` and `revenue` commands -/

/-- A call of a command to the client. -/
inductive NetCall where
  | listAccounts (config : Config)
  | listTransactions (config : Config) (accountID : String) (params : ListTransactionsParams)
  deriving DecidableEq

/-- What the run of a command is given: the flag values, the environment
variable, `time.Parse`, and the answers of the client.  `ListTransactions n` is
the answer to the call number `n` (from 0) of the run to `ListTransactions`. -/
structure World (F : Type) where
  apiKey : String
  filterAccountsStr : String
  startDate : String
  endDate : String
  aggregate : String
  counterparty : String
  envAPIKey : String
  timeParse : String → String → Except String Unit
  ListAccounts : Config → Except String (AccountResponse F)
  ListTransactions :
    Nat → Config → String → ListTransactionsParams → Except String (TransactionResponse F)

/-- What the run of a command leaves: the client calls in order, the aggregate
lines printed (key and value), and the `log.Fatalf` message when the run ended
with one. -/
structure Run (F : Type) where
  calls : List NetCall
  printed : List (String × F)
  fatal : Option String

/-- The account IDs of the `ListTransactions` calls of a run, in order. -/
def Run.transactionCalls {F : Type} (r : Run F) : List String :=
  r.calls.filterMap (fun c =>
    match c with
    | .listTransactions _ accountID _ => some accountID
    | .listAccounts _ => none)

/-- The number of `ListAccounts` calls of a run. -/
def Run.accountCalls {F : Type} (r : Run F) : Nat :=
  (r.calls.filter (fun c =>
    match c with
    | .listAccounts _ => true
    | .listTransactions _ _ _ => false)).length

/-- The loop of lines 115-122 (`spendCmd`) and 195-202 (`revenueCmd`): one
`ListTransactions` call for each account in turn, the first error ending the
loop.  `n` counts the calls made before, `transactions` holds what was
appended before; the result is the account IDs called and the outcome. -/
def fetchTransactions {F : Type}
    (lt : Nat → Config → String → ListTransactionsParams →
      Except String (TransactionResponse F))
    (config : Config) (params : ListTransactionsParams) :
    List (Account F) → Nat → List (Transaction F) →
      List String × Except String (List (Transaction F))
  | [], _, transactions => ([], .ok transactions)
  | account :: accounts, n, transactions =>
    match lt n config account.ID params with
    | .error err => ([account.ID], .error err)
    | .ok transactionResponse =>
      let rest := fetchTransactions lt config params accounts (n + 1)
        (transactions ++ transactionResponse.Transactions)
      (account.ID :: rest.1, rest.2)

/-- The body shared by `spendCmd` and `revenueCmd`, which differ only in the
sign test of the pipeline `pipeline` (lines 124-135 and 204-215). -/
def runReport {F : Type} (pipeline : String → String → List (Transaction F) → GoMap F)
    (w : World F) : Run F :=
  let apiKey := if w.apiKey = "" then w.envAPIKey else w.apiKey
  if apiKey = "" then
    ⟨[], [], some ("You must provide an API key, either by setting MERCURY_API_KEY " ++
      "or passing --api-key")⟩
  else
    let listTransactionParams : ListTransactionsParams := {}
    let startCheck : Except String ListTransactionsParams :=
      if w.startDate ≠ "" then
        match w.timeParse "2006-01-02" w.startDate with
        | .error _ => .error "Invalid start date format. Please use YYYY-MM-DD."
        | .ok _ => .ok { listTransactionParams with Start := some w.startDate }
      else .ok listTransactionParams
    match startCheck with
    | .error msg => ⟨[], [], some msg⟩
    | .ok listTransactionParams =>
      let endCheck : Except String ListTransactionsParams :=
        if w.endDate ≠ "" then
          match w.timeParse "2006-01-02" w.endDate with
          | .error _ => .error "Invalid end date format. Please use YYYY-MM-DD."
          | .ok _ => .ok { listTransactionParams with End := some w.endDate }
        else .ok listTransactionParams
      match endCheck with
      | .error msg => ⟨[], [], some msg⟩
      | .ok listTransactionParams =>
        let filterAccounts : List String :=
          if w.filterAccountsStr ≠ "" then strings.Split w.filterAccountsStr ',' else []
        let config : Config := ⟨apiKey⟩
        match w.ListAccounts config with
        | .error err =>
          ⟨[.listAccounts config], [],
            some ("Something went wrong listing accounts: " ++ err)⟩
        | .ok accountsResponse =>
          let accounts := accountsResponse.Accounts
          let accounts := filter accounts (fun account =>
            decide (w.filterAccountsStr = "") || contains filterAccounts account.ID)
          let fetched := fetchTransactions w.ListTransactions config listTransactionParams
            accounts 0 []
          let calls := NetCall.listAccounts config ::
            fetched.1.map (fun accountID =>
              NetCall.listTransactions config accountID listTransactionParams)
          match fetched.2 with
          | .error err =>
            ⟨calls, [],
              some ("Something went wrong listing transactions for account: " ++ err)⟩
          | .ok transactions =>
            ⟨calls, pipeline w.counterparty w.aggregate transactions, none⟩

/-- The `Run` function of `spendCmd`. -/
def spendCmd {F : Type} [Add F] [LT F] [OfNat F 0] [(a b : F) → Decidable (a < b)]
    (w : World F) : Run F := runReport spendAggregate w

/-- The `Run` function of `revenueCmd`. -/
def revenueCmd {F : Type} [Add F] [LT F] [OfNat F 0] [(a b : F) → Decidable (a < b)]
    (w : World F) : Run F := runReport revenueAggregate w

/-! ## Specification vocabulary for the commands -/

/-- The transactions of the answers to the calls for `accounts`, the first
call being number `n`, in order; an error answer contributes none. -/
def collected {F : Type}
    (lt : Nat → Config → String → ListTransactionsParams →
      Except String (TransactionResponse F))
    (config : Config) (params : ListTransactionsParams) :
    List (Account F) → Nat → List (Transaction F)
  | [], _ => []
  | account :: accounts, n =>
    (match lt n config account.ID params with
      | .ok r => r.Transactions
      | .error _ => [])
      ++ collected lt config params accounts (n + 1)

/-- The API key a run uses: the flag, or the environment variable when the
flag is empty. -/
def World.resolvedKey {F : Type} (w : World F) : String :=
  if w.apiKey = "" then w.envAPIKey else w.apiKey

/-- The parameters a run passes to `ListTransactions`: the start and the end
date when the flags are non-empty, nothing else. -/
def World.dateParams {F : Type} (w : World F) : ListTransactionsParams :=
  { Start := if w.startDate ≠ "" then some w.startDate else none,
    End := if w.endDate ≠ "" then some w.endDate else none }

/-- The run gets as far as the account list `accts`: an API key is there, the
date flags that are set parse, and `ListAccounts` returns `accts`. -/
def World.Ready {F : Type} (w : World F) (accts : List (Account F)) : Prop :=
  w.resolvedKey ≠ ""
  ∧ (w.startDate ≠ "" → w.timeParse "2006-01-02" w.startDate = .ok ())
  ∧ (w.endDate ≠ "" → w.timeParse "2006-01-02" w.endDate = .ok ())
  ∧ w.ListAccounts ⟨w.resolvedKey⟩ = .ok ⟨accts⟩

/-- The sub-sequence of `accts` named by the `--accounts` flag: every account
when the flag is empty, else those whose ID is an element of the flag split on
commas. -/
def selection {F : Type} (flag : String) (accts : List (Account F)) : List (Account F) :=
  if flag = "" then accts
  else accts.filter (fun a => decide (a.ID ∈ strings.Split flag ','))

/-! ## A reference `time.Parse` for the layout `2006-01-02` -/

/-- Gregorian leap year. -/
def isLeap (year : Nat) : Bool :=
  year % 4 = 0 && (year % 100 ≠ 0 || year % 400 = 0)

/-- Number of days of a month of a year. -/
def daysIn (month year : Nat) : Nat :=
  if month = 2 then (if isLeap year then 29 else 28)
  else if month = 4 ∨ month = 6 ∨ month = 9 ∨ month = 11 then 30
  else 31

/-- Value of a decimal digit character. -/
def digitValue (c : Char) : Nat := c.toNat - '0'.toNat

/-- The dates `time.Parse("2006-01-02", value)` accepts: four digits, a hyphen,
two digits of a month from 1 to 12, a hyphen, two digits of a day of that
month, and nothing more. -/
def parseDate (value : String) : Except String Unit :=
  match value.toList with
  | [y₁, y₂, y₃, y₄, h₁, m₁, m₂, h₂, d₁, d₂] =>
    if y₁.isDigit && y₂.isDigit && y₃.isDigit && y₄.isDigit && h₁ = '-'
        && m₁.isDigit && m₂.isDigit && h₂ = '-' && d₁.isDigit && d₂.isDigit then
      let year := 1000 * digitValue y₁ + 100 * digitValue y₂ + 10 * digitValue y₃
        + digitValue y₄
      let month := 10 * digitValue m₁ + digitValue m₂
      let day := 10 * digitValue d₁ + digitValue d₂
      if month < 1 ∨ 12 < month then .error "month out of range"
      else if day < 1 ∨ daysIn month year < day then .error "day out of range"
      else .ok ()
    else .error "cannot parse"
  | _ => .error "cannot parse"

/-! ## Concrete inputs -/

/-- An amount type whose addition is not exact, for the examples: integers
whose sums saturate at -100 and 100, so that, as with `float64`, the sum the
code forms need not be the exact sum. -/
structure Saturating where
  val : Int
  deriving DecidableEq

instance Saturating.instAdd : Add Saturating :=
  ⟨fun a b => ⟨max (-100) (min 100 (a.val + b.val))⟩⟩

instance Saturating.instNeg : Neg Saturating := ⟨fun a => ⟨-a.val⟩⟩

instance Saturating.instLT : LT Saturating := ⟨fun a b => a.val < b.val⟩

instance Saturating.instZero : OfNat Saturating 0 := ⟨⟨0⟩⟩

instance Saturating.instDecidableLT (a b : Saturating) : Decidable (a < b) :=
  Int.decLt a.val b.val

/-- Two accounts, `acct1` and `acct2`. -/
def twoAccounts : List (Account ℚ) :=
  [⟨"acct1", "Checking", "active", "checking", 0, 0⟩,
    ⟨"acct2", "Savings", "active", "savings", 0, 0⟩]

/-- A world with no `--accounts` flag in which `ListAccounts` returns the two
accounts and every `ListTransactions` call fails. -/
def failingWorld : World ℚ where
  apiKey := "key"
  filterAccountsStr := ""
  startDate := ""
  endDate := ""
  aggregate := "counterparty"
  counterparty := ""
  envAPIKey := ""
  timeParse := fun _ value => parseDate value
  ListAccounts := fun _ => .ok ⟨twoAccounts⟩
  ListTransactions := fun _ _ _ _ => .error "connection refused"

/-- A world with the flag `--accounts acct1` in which `ListAccounts` returns
the two accounts and every `ListTransactions` call returns one spend and one
revenue transaction. -/
def oneOfTwoWorld : World ℚ where
  apiKey := "key"
  filterAccountsStr := "acct1"
  startDate := ""
  endDate := ""
  aggregate := "counterparty"
  counterparty := ""
  envAPIKey := ""
  timeParse := fun _ value => parseDate value
  ListAccounts := fun _ => .ok ⟨twoAccounts⟩
  ListTransactions := fun _ _ _ _ =>
    .ok ⟨2, [⟨-10, "A", "t1", "", ""⟩, ⟨25, "B", "t2", "", ""⟩]⟩

/-- A transport whose every response is `404 Not Found` with a JSON body. -/
def notFoundTransport : Transport where
  NewRequest := fun method url => .ok ⟨method, url, []⟩
  Do := fun _ => .ok ⟨404, "404 Not Found", .ok "\x7b\x7d"⟩

/-- A world with the start date `2024-13-40`, an API key and a working
client. -/
def badDateWorld : World ℚ where
  apiKey := "key"
  filterAccountsStr := ""
  startDate := "2024-13-40"
  endDate := ""
  aggregate := "counterparty"
  counterparty := ""
  envAPIKey := ""
  timeParse := fun _ value => parseDate value
  ListAccounts := fun _ => .ok ⟨[⟨"acct1", "Checking", "active", "checking", 0, 0⟩]⟩
  ListTransactions := fun _ _ _ _ => .ok ⟨0, []⟩

/-! ## Lemmas on maps and on the list helpers -/

theorem GoMap.get_set {β : Type} (m : GoMap β) (k k' : String) (v : β) :
    (m.set k v).get k' = if k = k' then some v else m.get k' := by
  induction m with
  | nil => simp [GoMap.set, GoMap.get]
  | cons hd tl ih =>
    obtain ⟨a, b⟩ := hd
    by_cases h : a = k
    · subst h
      by_cases h' : a = k' <;> simp [GoMap.set, GoMap.get, h']
    · by_cases h' : a = k'
      · subst h'
        simp [GoMap.set, GoMap.get, h, Ne.symm h]
      · simp [GoMap.set, GoMap.get, h, h', ih]

theorem GoMap.get_neg {F : Type} [Neg F] (m : GoMap F) (k : String) :
    (GoMap.neg m).get k = (m.get k).map (fun v => -v) := by
  induction m with
  | nil => simp [GoMap.neg, GoMap.get]
  | cons hd tl ih =>
    obtain ⟨a, b⟩ := hd
    by_cases h : a = k
    · simp [GoMap.neg, GoMap.get, h]
    · have ih' : GoMap.get (List.map (fun kv => (kv.1, -kv.2)) tl) k
          = (GoMap.get tl k).map (fun v => -v) := ih
      simp [GoMap.neg, GoMap.get, h, ih']

theorem filter_foldl_eq {T : Type} (test : T → Bool) (ss acc : List T) :
    ss.foldl (fun ret s => if test s then ret ++ [s] else ret) acc
      = acc ++ ss.filter test := by
  induction ss generalizing acc with
  | nil => simp
  | cons s ss ih =>
    by_cases h : test s
    · simp [List.foldl, h, ih, List.filter]
    · simp [List.foldl, h, ih, List.filter]

theorem filter_eq {T : Type} (ss : List T) (test : T → Bool) :
    filter ss test = ss.filter test := by
  simp [filter, filter_foldl_eq]

theorem contains_iff (slice : List String) (element : String) :
    contains slice element = true ↔ element ∈ slice := by
  induction slice with
  | nil => simp [contains]
  | cons e es ih =>
    by_cases h : e = element
    · simp [contains, h]
    · simp [contains, h, ih, Ne.symm h]

/-! ## The aggregate as a running sum, for every amount type -/

theorem aggregate_foldl_get {F : Type} [Add F] (txns : List (Transaction F)) (acc : GoMap F)
    (k : String) :
    (txns.foldl
        (fun spend txn =>
          match spend.get txn.CounterpartyName with
          | some currentSpend => spend.set txn.CounterpartyName (txn.Amount + currentSpend)
          | none => spend.set txn.CounterpartyName txn.Amount)
        acc).get k
      = (amountsOf txns k).foldl addAmount (acc.get k) := by
  induction txns generalizing acc with
  | nil => simp [amountsOf]
  | cons t ts ih =>
    rw [List.foldl_cons, ih]
    by_cases h : t.CounterpartyName = k
    · subst h
      cases hg : GoMap.get acc t.CounterpartyName with
      | none => simp [amountsOf, List.filter, GoMap.get_set, addAmount, hg]
      | some c => simp [amountsOf, List.filter, GoMap.get_set, addAmount, hg]
    · cases hg : GoMap.get acc t.CounterpartyName with
      | none => simp [amountsOf, List.filter, GoMap.get_set, h]
      | some c => simp [amountsOf, List.filter, GoMap.get_set, h]

/-- Value of the aggregate at a key, for every amount type: the running sum of
the amounts of the transactions that carry the name. -/
theorem aggregate_get_running {F : Type} [Add F] (txns : List (Transaction F))
    (aggregate k : String) :
    (aggregateByCounterparty txns aggregate).get k = runningSum (amountsOf txns k) := by
  unfold aggregateByCounterparty runningSum
  rw [aggregate_foldl_get]
  rfl

theorem addAmount_foldl_some {F : Type} [Add F] (as : List F) (c : F) :
    (as.foldl addAmount (some c)).isSome = true := by
  induction as generalizing c with
  | nil => rfl
  | cons a as ih =>
    rw [List.foldl_cons]
    exact ih (a + c)

theorem runningSum_isSome {F : Type} [Add F] (as : List F) :
    (runningSum as).isSome = true ↔ as ≠ [] := by
  cases as with
  | nil => simp [runningSum]
  | cons a as =>
    simp only [runningSum, List.foldl_cons, addAmount, ne_eq, reduceCtorEq, not_false_eq_true,
      iff_true]
    exact addAmount_foldl_some as a

theorem amountsOf_eq_nil {F : Type} (txns : List (Transaction F)) (k : String) :
    amountsOf txns k = [] ↔ k ∉ txns.map (fun t => t.CounterpartyName) := by
  simp only [amountsOf, List.map_eq_nil_iff, List.filter_eq_nil_iff, List.mem_map,
    decide_eq_true_eq, not_exists, not_and]

theorem spendAggregate_eq {F : Type} [Add F] [LT F] [OfNat F 0]
    [(a b : F) → Decidable (a < b)]
    (counterparty aggregate : String) (L : List (Transaction F)) :
    spendAggregate counterparty aggregate L
      = aggregateByCounterparty
          ((counterpartyStep counterparty L).filter (fun txn => decide (txn.Amount < 0)))
          aggregate := by
  unfold spendAggregate counterpartyStep
  by_cases h : counterparty = "" <;> simp [h, filter_eq]

theorem revenueAggregate_eq {F : Type} [Add F] [LT F] [OfNat F 0]
    [(a b : F) → Decidable (a < b)]
    (counterparty aggregate : String) (L : List (Transaction F)) :
    revenueAggregate counterparty aggregate L
      = aggregateByCounterparty
          ((counterpartyStep counterparty L).filter (fun txn => decide (txn.Amount > 0)))
          aggregate := by
  unfold revenueAggregate counterpartyStep
  by_cases h : counterparty = "" <;> simp [h, filter_eq]

theorem amountsOf_filter {F : Type} (p : F → Bool) (L : List (Transaction F)) (k : String) :
    amountsOf (L.filter (fun t => p t.Amount)) k = (amountsOf L k).filter p := by
  induction L with
  | nil => rfl
  | cons t ts ih =>
    simp only [amountsOf] at ih ⊢
    by_cases hp : p t.Amount = true <;> by_cases hk : t.CounterpartyName = k <;>
      simp only [List.filter_cons, hp, hk, decide_True, decide_False, if_true, if_false,
        List.map_cons, ih, Bool.false_eq_true]

theorem amountsOf_counterpartyStep {F : Type} (counterparty : String)
    (L : List (Transaction F)) (k : String) :
    amountsOf (counterpartyStep counterparty L) k
      = if counterparty = "" ∨ k ∈ strings.Split counterparty ',' then amountsOf L k
        else [] := by
  unfold counterpartyStep
  by_cases h : counterparty = ""
  · simp [h]
  · simp only [ne_eq, h, not_false_eq_true, if_true, false_or]
    induction L with
    | nil => simp [amountsOf]
    | cons t ts ih =>
      simp only [amountsOf] at ih ⊢
      by_cases hk : t.CounterpartyName = k
      · subst hk
        by_cases hc : contains (strings.Split counterparty ',') t.CounterpartyName = true
        · have hm := (contains_iff _ _).mp hc
          simp only [hm, if_true] at ih ⊢
          simp only [List.filter_cons, hc, decide_True, if_true, List.map_cons, ih]
        · have hm : t.CounterpartyName ∉ strings.Split counterparty ',' :=
            fun hm => hc ((contains_iff _ _).mpr hm)
          simp only [hm, if_false] at ih ⊢
          simp only [List.filter_cons, hc, if_false, ih, Bool.false_eq_true]
      · by_cases hc : contains (strings.Split counterparty ',') t.CounterpartyName = true
        · simp only [List.filter_cons, hc, hk, decide_False, if_true, if_false, ih,
            Bool.false_eq_true]
        · simp only [List.filter_cons, hc, hk, decide_False, if_true, if_false, ih,
            Bool.false_eq_true]

theorem amountsOf_filter_lt {F : Type} [LT F] [OfNat F 0] [(a b : F) → Decidable (a < b)]
    (L : List (Transaction F)) (k : String) :
    amountsOf (L.filter (fun t => decide (t.Amount < 0))) k
      = (amountsOf L k).filter (fun a => decide (a < 0)) :=
  amountsOf_filter (fun a => decide (a < 0)) L k

theorem amountsOf_filter_gt {F : Type} [LT F] [OfNat F 0] [(a b : F) → Decidable (a < b)]
    (L : List (Transaction F)) (k : String) :
    amountsOf (L.filter (fun t => decide (t.Amount > 0))) k
      = (amountsOf L k).filter (fun a => decide (a > 0)) :=
  amountsOf_filter (fun a => decide (a > 0)) L k

theorem amountsOf_step_lt {F : Type} [LT F] [OfNat F 0] [(a b : F) → Decidable (a < b)]
    (counterparty : String) (L : List (Transaction F)) (k : String) :
    amountsOf ((counterpartyStep counterparty L).filter (fun t => decide (t.Amount < 0))) k
      = if counterparty = "" ∨ k ∈ strings.Split counterparty ',' then
          amountsOf (L.filter (fun t => decide (t.Amount < 0))) k
        else [] := by
  rw [amountsOf_filter_lt, amountsOf_filter_lt, amountsOf_counterpartyStep]
  split <;> simp

theorem amountsOf_step_gt {F : Type} [LT F] [OfNat F 0] [(a b : F) → Decidable (a < b)]
    (counterparty : String) (L : List (Transaction F)) (k : String) :
    amountsOf ((counterpartyStep counterparty L).filter (fun t => decide (t.Amount > 0))) k
      = if counterparty = "" ∨ k ∈ strings.Split counterparty ',' then
          amountsOf (L.filter (fun t => decide (t.Amount > 0))) k
        else [] := by
  rw [amountsOf_filter_gt, amountsOf_filter_gt, amountsOf_counterpartyStep]
  split <;> simp

theorem counterpartyStep_drop {F : Type} (counterparty : String) (hne : counterparty ≠ "")
    (L₁ L₂ : List (Transaction F)) (t : Transaction F)
    (ht : t.CounterpartyName ∉ strings.Split counterparty ',') :
    counterpartyStep counterparty (L₁ ++ t :: L₂) = counterpartyStep counterparty (L₁ ++ L₂) := by
  have hc : ¬ contains (strings.Split counterparty ',') t.CounterpartyName = true :=
    fun hc => ht ((contains_iff _ _).mp hc)
  unfold counterpartyStep
  simp only [ne_eq, hne, not_false_eq_true, if_true, List.filter_append, List.filter_cons, hc,
    if_false, Bool.false_eq_true]

theorem mem_amountsOf {F : Type} {L : List (Transaction F)} {k : String} {a : F}
    (h : a ∈ amountsOf L k) :
    ∃ t ∈ L, t.CounterpartyName = k ∧ t.Amount = a := by
  simp only [amountsOf, List.mem_map, List.mem_filter, decide_eq_true_eq] at h
  obtain ⟨t, ⟨ht, hk⟩, ha⟩ := h
  exact ⟨t, ht, hk, ha⟩

theorem mem_amountsOf_step {F : Type} {counterparty : String} {L : List (Transaction F)}
    {k : String} {a : F} (h : a ∈ amountsOf (counterpartyStep counterparty L) k) :
    ∃ t ∈ L, t.CounterpartyName = k ∧ t.Amount = a := by
  rw [amountsOf_counterpartyStep] at h
  split at h
  · exact mem_amountsOf h
  · exact absurd h (List.not_mem_nil a)

theorem amountsOf_ne_nil_iff {F : Type} (p : Transaction F → Bool) (L : List (Transaction F))
    (k : String) :
    amountsOf (L.filter p) k ≠ [] ↔ ∃ t ∈ L, t.CounterpartyName = k ∧ p t = true := by
  simp only [amountsOf, ne_eq, List.map_eq_nil_iff, List.filter_eq_nil_iff, List.mem_filter,
    decide_eq_true_eq, not_forall, Classical.not_imp, not_not]
  constructor
  · rintro ⟨t, ⟨ht, hp⟩, hk⟩
    exact ⟨t, ht, hk, hp⟩
  · rintro ⟨t, ht, hk, hp⟩
    exact ⟨t, ⟨ht, hp⟩, hk⟩

/-! ## The counterparty filter, for every amount type -/

/-- C2: with a non-empty `--counterparty` flag, split on commas into the filter
list, the spend and the revenue mapping have keys only from the filter list: a
name is a key exactly when it is in the filter list and some transaction with
that name has the sign of the pipeline.  The value at a key is the sum of the
amounts of the transactions with that name and that sign, formed as the code
forms it (each amount added in list order to the sum so far, with the addition
of the amount type, which for `float64` rounds).  A transaction whose
counterparty name is not in the filter list changes neither mapping, whatever
its amount. -/
theorem counterparty_filter_spec {F : Type} [Add F] [LT F] [OfNat F 0]
    [(a b : F) → Decidable (a < b)]
    (L : List (Transaction F)) (counterparty aggregate : String)
    (hne : counterparty ≠ "") :
    (∀ k : String,
        (spendAggregate counterparty aggregate L).get k
          = if k ∈ strings.Split counterparty ',' then
              runningSum (amountsOf (L.filter (fun t => decide (t.Amount < 0))) k)
            else none)
    ∧ (∀ k : String,
        (revenueAggregate counterparty aggregate L).get k
          = if k ∈ strings.Split counterparty ',' then
              runningSum (amountsOf (L.filter (fun t => decide (t.Amount > 0))) k)
            else none)
    ∧ (∀ k : String,
        (((spendAggregate counterparty aggregate L).get k).isSome = true
          ↔ k ∈ strings.Split counterparty ','
              ∧ ∃ t ∈ L, t.CounterpartyName = k ∧ t.Amount < 0)
        ∧ (((revenueAggregate counterparty aggregate L).get k).isSome = true
          ↔ k ∈ strings.Split counterparty ','
              ∧ ∃ t ∈ L, t.CounterpartyName = k ∧ t.Amount > 0))
    ∧ (∀ (L₁ L₂ : List (Transaction F)) (t : Transaction F),
        t.CounterpartyName ∉ strings.Split counterparty ',' →
        spendAggregate counterparty aggregate (L₁ ++ t :: L₂)
            = spendAggregate counterparty aggregate (L₁ ++ L₂)
          ∧ revenueAggregate counterparty aggregate (L₁ ++ t :: L₂)
            = revenueAggregate counterparty aggregate (L₁ ++ L₂)) := by
  have hspend : ∀ k : String,
      (spendAggregate counterparty aggregate L).get k
        = if k ∈ strings.Split counterparty ',' then
            runningSum (amountsOf (L.filter (fun t => decide (t.Amount < 0))) k)
          else none := by
    intro k
    rw [spendAggregate_eq, aggregate_get_running, amountsOf_step_lt]
    by_cases hk : k ∈ strings.Split counterparty ','
    · simp only [hne, hk, false_or, if_true]
    · simp only [hne, hk, false_or, if_false]
      rfl
  have hrev : ∀ k : String,
      (revenueAggregate counterparty aggregate L).get k
        = if k ∈ strings.Split counterparty ',' then
            runningSum (amountsOf (L.filter (fun t => decide (t.Amount > 0))) k)
          else none := by
    intro k
    rw [revenueAggregate_eq, aggregate_get_running, amountsOf_step_gt]
    by_cases hk : k ∈ strings.Split counterparty ','
    · simp only [hne, hk, false_or, if_true]
    · simp only [hne, hk, false_or, if_false]
      rfl
  refine ⟨hspend, hrev, ?_, ?_⟩
  · intro k
    constructor
    · rw [hspend]
      by_cases hk : k ∈ strings.Split counterparty ','
      · simp only [hk, if_true, true_and]
        rw [runningSum_isSome, amountsOf_ne_nil_iff]
        simp only [decide_eq_true_eq]
      · simp only [hk, if_false, Option.isSome_none, Bool.false_eq_true, false_and]
    · rw [hrev]
      by_cases hk : k ∈ strings.Split counterparty ','
      · simp only [hk, if_true, true_and]
        rw [runningSum_isSome, amountsOf_ne_nil_iff]
        simp only [decide_eq_true_eq]
      · simp only [hk, if_false, Option.isSome_none, Bool.false_eq_true, false_and]
  · intro L₁ L₂ t ht
    rw [spendAggregate_eq, spendAggregate_eq, revenueAggregate_eq, revenueAggregate_eq,
      counterpartyStep_drop counterparty hne L₁ L₂ t ht]
    exact ⟨rfl, rfl⟩

/-- Instance of C2 with the filter `X,Y`: the transaction of counterparty `Z`
is dropped from the spend mapping, and with saturating amounts the value of `X`
is the sum as the code forms it, `-80 + -70 = -100`. -/
theorem counterparty_filter_spec_witness :
    "X,Y" ≠ ""
    ∧ strings.Split "X,Y" ',' = ["X", "Y"]
    ∧ spendAggregate "X,Y" "counterparty"
          ([(⟨-4, "X", "t1", "", ""⟩ : Transaction ℚ)] ++ ⟨-7, "Z", "t2", "", ""⟩
            :: [⟨6, "Y", "t3", "", ""⟩])
        = spendAggregate "X,Y" "counterparty"
          ([(⟨-4, "X", "t1", "", ""⟩ : Transaction ℚ)] ++ [⟨6, "Y", "t3", "", ""⟩])
    ∧ (spendAggregate "X,Y" "counterparty"
          [(⟨⟨-80⟩, "X", "t1", "", ""⟩ : Transaction Saturating), ⟨⟨-7⟩, "Z", "t2", "", ""⟩,
            ⟨⟨-70⟩, "X", "t3", "", ""⟩]).get "X"
        = some ⟨-100⟩ :=
  ⟨by decide, by decide,
    ((counterparty_filter_spec
        ([(⟨-4, "X", "t1", "", ""⟩ : Transaction ℚ)] ++ ⟨-7, "Z", "t2", "", ""⟩
          :: [⟨6, "Y", "t3", "", ""⟩])
        "X,Y" "counterparty" (by decide)).2.2.2
      [⟨-4, "X", "t1", "", ""⟩] [⟨6, "Y", "t3", "", ""⟩] ⟨-7, "Z", "t2", "", ""⟩
      (by decide)).1,
    ((counterparty_filter_spec
        [(⟨⟨-80⟩, "X", "t1", "", ""⟩ : Transaction Saturating), ⟨⟨-7⟩, "Z", "t2", "", ""⟩,
          ⟨⟨-70⟩, "X", "t3", "", ""⟩]
        "X,Y" "counterparty" (by decide)).1 "X").trans (by decide)⟩

/-! ## The aggregate as a sum, for amounts taken as exact numbers -/

theorem addAmount_foldl (as : List ℚ) (cur : Option ℚ) :
    as.foldl addAmount cur
      = if as = [] then cur else some (as.sum + cur.getD 0) := by
  induction as generalizing cur with
  | nil => simp
  | cons a as ih =>
    rw [List.foldl_cons, ih]
    cases cur with
    | none =>
      by_cases h : as = []
      · simp [h, addAmount]
      · simp [h, addAmount]; ring
    | some c =>
      by_cases h : as = []
      · simp [h, addAmount]
      · simp [h, addAmount]; ring

/-- For exact numbers the running sum is the sum of the list. -/
theorem runningSum_rat (as : List ℚ) :
    runningSum as = if as = [] then none else some as.sum := by
  unfold runningSum
  rw [addAmount_foldl]
  by_cases h : as = []
  · simp only [h, if_true]
  · simp only [h, if_false, Option.getD_none, add_zero]

theorem aggregate_get_amounts (txns : List (Transaction ℚ)) (aggregate k : String) :
    (aggregateByCounterparty txns aggregate).get k
      = if amountsOf txns k = [] then none else some (amountsOf txns k).sum := by
  rw [aggregate_get_running, runningSum_rat]

/-- Value of the aggregate at a key: absent when no transaction carries the
name, else the sum of the amounts of the transactions that carry it. -/
theorem aggregate_get (txns : List (Transaction ℚ)) (aggregate k : String) :
    (aggregateByCounterparty txns aggregate).get k
      = if k ∈ txns.map (fun t => t.CounterpartyName) then some (amountsOf txns k).sum
        else none := by
  rw [aggregate_get_amounts]
  by_cases h : k ∈ txns.map (fun t => t.CounterpartyName)
  · have h' : ¬ amountsOf txns k = [] := by
      rw [amountsOf_eq_nil]; exact not_not.mpr h
    simp only [h', h, if_true, if_false]
  · have h' : amountsOf txns k = [] := (amountsOf_eq_nil txns k).mpr h
    simp only [h', h, if_true, if_false]

/-- C1: for every transaction list and every `aggregate` string, the key set of
`aggregateByCounterparty txns aggregate` is exactly the set of counterparty
names occurring in `txns`, the value at a key is the sum of the amounts of the
transactions with that name (amounts taken as exact numbers), the empty list
gives the empty mapping, and `[(A, -10), (A, -5), (B, -3)]` gives
`{A: -15, B: -3}`. -/
theorem aggregateByCounterparty_spec :
    (∀ (txns : List (Transaction ℚ)) (aggregate k : String),
        (((aggregateByCounterparty txns aggregate).get k).isSome
            ↔ k ∈ txns.map (fun t => t.CounterpartyName))
        ∧ (k ∈ txns.map (fun t => t.CounterpartyName) →
            (aggregateByCounterparty txns aggregate).get k
              = some (amountsOf txns k).sum))
    ∧ (∀ aggregate : String,
        aggregateByCounterparty ([] : List (Transaction ℚ)) aggregate = [])
    ∧ (∀ (aggregate : String) (t₁ t₂ t₃ : Transaction ℚ),
        t₁.CounterpartyName = "A" → t₁.Amount = -10 →
        t₂.CounterpartyName = "A" → t₂.Amount = -5 →
        t₃.CounterpartyName = "B" → t₃.Amount = -3 →
        aggregateByCounterparty [t₁, t₂, t₃] aggregate = [("A", -15), ("B", -3)]) := by
  refine ⟨?_, ?_, ?_⟩
  · intro txns aggregate k
    rw [aggregate_get]
    by_cases h : k ∈ txns.map (fun t => t.CounterpartyName)
    · simp only [h, if_true, Option.isSome_some, true_iff, implies_true, and_self]
    · simp only [h, if_false, Option.isSome_none, Bool.false_eq_true, false_imp_iff,
        and_self]
  · intro aggregate
    rfl
  · intro aggregate t₁ t₂ t₃ n₁ a₁ n₂ a₂ n₃ a₃
    simp [aggregateByCounterparty, GoMap.get, GoMap.set, n₁, n₂, n₃, a₁, a₂, a₃]
    norm_num

/-- Instance of C1 on the three-transaction list of the specification. -/
theorem aggregateByCounterparty_spec_witness :
    aggregateByCounterparty
        [(⟨-10, "A", "t1", "", ""⟩ : Transaction ℚ), ⟨-5, "A", "t2", "", ""⟩,
          ⟨-3, "B", "t3", "", ""⟩]
        "counterparty"
      = [("A", -15), ("B", -3)] :=
  aggregateByCounterparty_spec.2.2 "counterparty" _ _ _ rfl rfl rfl rfl rfl rfl

theorem spendAggregate_get (counterparty aggregate : String) (L : List (Transaction ℚ))
    (k : String) :
    (spendAggregate counterparty aggregate L).get k
      = if amountsOf ((counterpartyStep counterparty L).filter
            (fun t => decide (t.Amount < 0))) k = [] then none
        else some (amountsOf ((counterpartyStep counterparty L).filter
            (fun t => decide (t.Amount < 0))) k).sum := by
  rw [spendAggregate_eq, aggregate_get_amounts]

theorem revenueAggregate_get (counterparty aggregate : String) (L : List (Transaction ℚ))
    (k : String) :
    (revenueAggregate counterparty aggregate L).get k
      = if amountsOf ((counterpartyStep counterparty L).filter
            (fun t => decide (t.Amount > 0))) k = [] then none
        else some (amountsOf ((counterpartyStep counterparty L).filter
            (fun t => decide (t.Amount > 0))) k).sum := by
  rw [revenueAggregate_eq, aggregate_get_amounts]

theorem sum_neg_of_all_neg (as : List ℚ) (h : ∀ a ∈ as, a < 0) (hne : as ≠ []) :
    as.sum < 0 := by
  induction as with
  | nil => exact absurd rfl hne
  | cons a as ih =>
    have ha : a < 0 := h a (List.mem_cons_self a as)
    by_cases hnil : as = []
    · simp [hnil, ha]
    · have := ih (fun x hx => h x (List.mem_cons_of_mem a hx)) hnil
      simp only [List.sum_cons]
      linarith

theorem sum_pos_of_all_pos (as : List ℚ) (h : ∀ a ∈ as, 0 < a) (hne : as ≠ []) :
    0 < as.sum := by
  induction as with
  | nil => exact absurd rfl hne
  | cons a as ih =>
    have ha : 0 < a := h a (List.mem_cons_self a as)
    by_cases hnil : as = []
    · simp [hnil, ha]
    · have := ih (fun x hx => h x (List.mem_cons_of_mem a hx)) hnil
      simp only [List.sum_cons]
      linarith

theorem sum_filter_neg_lt (as : List ℚ) (hne : as.filter (fun a => decide (a < 0)) ≠ []) :
    (as.filter (fun a => decide (a < 0))).sum < 0 :=
  sum_neg_of_all_neg _ (fun a ha => by simpa using (List.mem_filter.mp ha).2) hne

theorem sum_filter_pos_gt (as : List ℚ) (hne : as.filter (fun a => decide (a > 0)) ≠ []) :
    0 < (as.filter (fun a => decide (a > 0))).sum :=
  sum_pos_of_all_pos _ (fun a ha => by simpa using (List.mem_filter.mp ha).2) hne

theorem filter_eq_nil_of_all_zero (p : ℚ → Bool) (hp : p 0 = false) (as : List ℚ)
    (h : ∀ a ∈ as, a = 0) : as.filter p = [] := by
  rw [List.filter_eq_nil_iff]
  intro a ha
  rw [h a ha, hp]
  exact Bool.false_ne_true

/-- C9: for every transaction list and counterparty flag, every value of the
spend mapping is strictly negative and every value of the revenue mapping is
strictly positive (amounts taken as exact numbers), so a counterparty all of
whose transactions have amount zero is a key of neither mapping. -/
theorem aggregate_sign_invariant (L : List (Transaction ℚ))
    (counterparty aggregate : String) :
    (∀ (k : String) (v : ℚ),
        (spendAggregate counterparty aggregate L).get k = some v → v < 0)
    ∧ (∀ (k : String) (v : ℚ),
        (revenueAggregate counterparty aggregate L).get k = some v → 0 < v)
    ∧ (∀ k : String, (∀ t ∈ L, t.CounterpartyName = k → t.Amount = 0) →
        (spendAggregate counterparty aggregate L).get k = none
          ∧ (revenueAggregate counterparty aggregate L).get k = none) := by
  refine ⟨?_, ?_, ?_⟩
  · intro k v hv
    rw [spendAggregate_get, amountsOf_filter_lt] at hv
    split at hv
    · exact absurd hv (by simp)
    · next hne =>
      have := sum_filter_neg_lt _ hne
      have hv' := Option.some.inj hv
      rw [← hv']
      exact this
  · intro k v hv
    rw [revenueAggregate_get, amountsOf_filter_gt] at hv
    split at hv
    · exact absurd hv (by simp)
    · next hne =>
      have := sum_filter_pos_gt _ hne
      have hv' := Option.some.inj hv
      rw [← hv']
      exact this
  · intro k hz
    have hall : ∀ a ∈ amountsOf (counterpartyStep counterparty L) k, a = 0 := by
      intro a ha
      obtain ⟨t, ht, hk, hta⟩ := mem_amountsOf_step ha
      rw [← hta]
      exact hz t ht hk
    constructor
    · rw [spendAggregate_get, amountsOf_filter_lt,
        filter_eq_nil_of_all_zero _ (by simp) _ hall]
      rfl
    · rw [revenueAggregate_get, amountsOf_filter_gt,
        filter_eq_nil_of_all_zero _ (by simp) _ hall]
      rfl

/-- Instance of C9: the spend value of `A` is negative and the zero-amount
counterparty `Z` is a key of neither mapping. -/
theorem aggregate_sign_invariant_witness :
    (spendAggregate "" "counterparty"
        [(⟨-10, "A", "t1", "", ""⟩ : Transaction ℚ), ⟨0, "Z", "t2", "", ""⟩,
          ⟨4, "B", "t3", "", ""⟩]).get "A"
      = some (-10)
    ∧ (-10 : ℚ) < 0
    ∧ (spendAggregate "" "counterparty"
        [(⟨-10, "A", "t1", "", ""⟩ : Transaction ℚ), ⟨0, "Z", "t2", "", ""⟩,
          ⟨4, "B", "t3", "", ""⟩]).get "Z"
      = none :=
  have h : (spendAggregate "" "counterparty"
        [(⟨-10, "A", "t1", "", ""⟩ : Transaction ℚ), ⟨0, "Z", "t2", "", ""⟩,
          ⟨4, "B", "t3", "", ""⟩]).get "A"
      = some (-10) := by
    simp [spendAggregate, filter, aggregateByCounterparty, GoMap.get, GoMap.set]
  ⟨h,
    (aggregate_sign_invariant
      [⟨-10, "A", "t1", "", ""⟩, ⟨0, "Z", "t2", "", ""⟩, ⟨4, "B", "t3", "", ""⟩]
      "" "counterparty").1 "A" (-10) h,
    ((aggregate_sign_invariant
      [⟨-10, "A", "t1", "", ""⟩, ⟨0, "Z", "t2", "", ""⟩, ⟨4, "B", "t3", "", ""⟩]
      "" "counterparty").2.2 "Z" (by simp)).1⟩

theorem amountsOf_map_negate {F : Type} [Neg F] (L : List (Transaction F)) (k : String) :
    amountsOf (L.map negateAmount) k = (amountsOf L k).map (fun a => -a) := by
  induction L with
  | nil => rfl
  | cons t ts ih =>
    simp only [amountsOf] at ih ⊢
    by_cases hk : t.CounterpartyName = k
    · simp only [List.map_cons, List.filter_cons, negateAmount, hk, decide_True, if_true, ih]
    · simp only [List.map_cons, List.filter_cons, negateAmount, hk, decide_False, if_false, ih,
        Bool.false_eq_true]

theorem filter_gt_map_neg (as : List ℚ) :
    (as.map (fun a => -a)).filter (fun a => decide (a > 0))
      = (as.filter (fun a => decide (a < 0))).map (fun a => -a) := by
  induction as with
  | nil => rfl
  | cons a as ih =>
    by_cases h : a < 0
    · have h' : -a > 0 := by linarith
      simp only [List.map_cons, List.filter_cons, h, h', decide_True, if_true, ih]
    · have h' : ¬ -a > 0 := by
        intro h'
        exact h (by linarith)
      simp only [List.map_cons, List.filter_cons, h, h', decide_False, if_false, ih,
        Bool.false_eq_true]

theorem sum_map_neg (as : List ℚ) : (as.map (fun a => -a)).sum = -as.sum := by
  induction as with
  | nil => simp
  | cons a as ih =>
    simp only [List.map_cons, List.sum_cons, ih]
    ring

/-- C10: the revenue pipeline on the list with every amount negated has the
same keys as the spend pipeline on the list, and at each key its value is the
negation of the spend value (amounts taken as exact numbers). -/
theorem revenue_mirrors_spend (L : List (Transaction ℚ))
    (counterparty aggregate k : String) :
    (revenueAggregate counterparty aggregate (L.map negateAmount)).get k
      = ((spendAggregate counterparty aggregate L).get k).map (fun v => -v) := by
  rw [revenueAggregate_get, spendAggregate_get, amountsOf_step_gt, amountsOf_step_lt,
    amountsOf_filter_gt, amountsOf_filter_lt, amountsOf_map_negate, filter_gt_map_neg]
  by_cases hc : counterparty = "" ∨ k ∈ strings.Split counterparty ','
  · simp only [hc, if_true]
    by_cases hs : (amountsOf L k).filter (fun a => decide (a < 0)) = []
    · simp [hs]
    · simp [hs, sum_map_neg]
  · simp [hc]

/-- Instance of C10 on a two-transaction list: the revenue value of `A` on the
negated list is the negation of the spend value of `A`. -/
theorem revenue_mirrors_spend_witness :
    (revenueAggregate "" "counterparty"
        ([(⟨-10, "A", "t1", "", ""⟩ : Transaction ℚ), ⟨4, "B", "t2", "", ""⟩].map
          negateAmount)).get "A"
      = ((spendAggregate "" "counterparty"
        [(⟨-10, "A", "t1", "", ""⟩ : Transaction ℚ), ⟨4, "B", "t2", "", ""⟩]).get "A").map
          (fun v => -v) :=
  revenue_mirrors_spend [⟨-10, "A", "t1", "", ""⟩, ⟨4, "B", "t2", "", ""⟩] ""
    "counterparty" "A"

/-! ## Spend negated against revenue -/

theorem filter_gt_map_neg_of {F : Type} [Neg F] [LT F] [OfNat F 0]
    [(a b : F) → Decidable (a < b)]
    (hsign : ∀ a : F, -a > 0 ↔ a < 0) (as : List F) :
    (as.map (fun a => -a)).filter (fun a => decide (a > 0))
      = (as.filter (fun a => decide (a < 0))).map (fun a => -a) := by
  induction as with
  | nil => rfl
  | cons a as ih =>
    by_cases h : a < 0
    · have h' : -a > 0 := (hsign a).mpr h
      simp only [List.map_cons, List.filter_cons, h, h', decide_True, if_true, ih]
    · have h' : ¬ -a > 0 := fun h' => h ((hsign a).mp h')
      simp only [List.map_cons, List.filter_cons, h, h', decide_False, if_false, ih,
        Bool.false_eq_true]

theorem addAmount_foldl_neg {F : Type} [Add F] [Neg F] [LT F] [OfNat F 0]
    (hclosed : ∀ a b : F, a < 0 → b < 0 → a + b < 0)
    (hneg : ∀ a b : F, a < 0 → b < 0 → -(a + b) = -a + -b)
    (bs : List F) (hbs : ∀ b ∈ bs, b < 0)
    (cur : Option F) (hcur : ∀ c, cur = some c → c < 0) :
    (bs.map (fun a => -a)).foldl addAmount (cur.map (fun a => -a))
      = (bs.foldl addAmount cur).map (fun a => -a) := by
  induction bs generalizing cur with
  | nil => rfl
  | cons b bs ih =>
    have hb : b < 0 := hbs b (List.mem_cons_self b bs)
    have hstep : addAmount (cur.map (fun a => -a)) (-b)
        = (addAmount cur b).map (fun a => -a) := by
      cases cur with
      | none => rfl
      | some c =>
        have hc : c < 0 := hcur c rfl
        simp only [addAmount, Option.map_some', hneg b c hb hc]
    have hinv : ∀ c, addAmount cur b = some c → c < 0 := by
      intro c hc
      cases cur with
      | none =>
        simp only [addAmount, Option.some.injEq] at hc
        rw [← hc]
        exact hb
      | some c' =>
        simp only [addAmount, Option.some.injEq] at hc
        rw [← hc]
        exact hclosed b c' hb (hcur c' rfl)
    rw [List.map_cons, List.foldl_cons, List.foldl_cons, hstep]
    exact ih (fun x hx => hbs x (List.mem_cons_of_mem b hx)) (addAmount cur b) hinv

/-- C4 fails as stated: for the single transaction `(A, -10)` the negated spend
mapping is `{A: 10}` and the revenue mapping is empty. -/
theorem negated_spend_ne_revenue :
    ¬ GoMap.Same
        (negatedSpend [(⟨-10, "A", "t1", "", ""⟩ : Transaction ℚ)] "counterparty")
        (plainRevenue [(⟨-10, "A", "t1", "", ""⟩ : Transaction ℚ)] "counterparty") := by
  intro h
  have hA := h "A"
  simp [negatedSpend, plainRevenue, filter, aggregateByCounterparty, GoMap.neg, GoMap.get,
    GoMap.set] at hA

/-- C4, amended: for every transaction list, negating every sum of the spend
aggregate of the list gives the revenue aggregate of the list with every amount
negated.  This holds for every amount type in which `-a > 0` exactly when
`a < 0`, the sum of two negative amounts is negative, and negation commutes
with the addition of two negative amounts; exact numbers are such a type, and
so are IEEE 754 doubles, whose rounding is symmetric under negation. -/
theorem negated_spend_eq_mirrored_revenue {F : Type} [Add F] [Neg F] [LT F] [OfNat F 0]
    [(a b : F) → Decidable (a < b)]
    (hsign : ∀ a : F, -a > 0 ↔ a < 0)
    (hclosed : ∀ a b : F, a < 0 → b < 0 → a + b < 0)
    (hneg : ∀ a b : F, a < 0 → b < 0 → -(a + b) = -a + -b)
    (L : List (Transaction F)) (aggregate : String) :
    GoMap.Same (negatedSpend L aggregate) (plainRevenue (L.map negateAmount) aggregate) := by
  intro k
  unfold negatedSpend plainRevenue
  rw [GoMap.get_neg, filter_eq, filter_eq, aggregate_get_running, aggregate_get_running,
    amountsOf_filter_lt, amountsOf_filter_gt, amountsOf_map_negate,
    filter_gt_map_neg_of hsign]
  unfold runningSum
  have hall : ∀ b ∈ (amountsOf L k).filter (fun a => decide (a < 0)), b < 0 := by
    intro b hb
    simpa using (List.mem_filter.mp hb).2
  exact (addAmount_foldl_neg hclosed hneg _ hall none (fun c hc => by simp at hc)).symm

theorem Saturating.neg_pos_iff (a : Saturating) : -a > 0 ↔ a < 0 := by
  show (0 : Int) < -a.val ↔ a.val < 0
  omega

theorem Saturating.add_neg_of_neg (a b : Saturating) (ha : a < 0) (hb : b < 0) :
    a + b < 0 := by
  have ha' : a.val < 0 := ha
  have hb' : b.val < 0 := hb
  show max (-100) (min 100 (a.val + b.val)) < 0
  omega

theorem Saturating.neg_add_eq (a b : Saturating) : -(a + b) = -a + -b := by
  show (⟨-(max (-100) (min 100 (a.val + b.val)))⟩ : Saturating)
    = ⟨max (-100) (min 100 (-a.val + -b.val))⟩
  congr 1
  omega

/-- Instance of the amended C4, at exact numbers and at saturating amounts: the
negated spend mapping of `[(A, -10), (B, 4), (A, -5)]` is the revenue mapping
of `[(A, 10), (B, -4), (A, 5)]`, and likewise for `[(A, -80), (A, -70)]`, whose
spend sum saturates. -/
theorem negated_spend_eq_mirrored_revenue_witness :
    GoMap.Same
      (negatedSpend
        [(⟨-10, "A", "t1", "", ""⟩ : Transaction ℚ), ⟨4, "B", "t2", "", ""⟩,
          ⟨-5, "A", "t3", "", ""⟩] "counterparty")
      (plainRevenue
        ([(⟨-10, "A", "t1", "", ""⟩ : Transaction ℚ), ⟨4, "B", "t2", "", ""⟩,
          ⟨-5, "A", "t3", "", ""⟩].map negateAmount) "counterparty")
    ∧ GoMap.Same
      (negatedSpend
        [(⟨⟨-80⟩, "A", "t1", "", ""⟩ : Transaction Saturating), ⟨⟨-70⟩, "A", "t2", "", ""⟩]
        "counterparty")
      (plainRevenue
        ([(⟨⟨-80⟩, "A", "t1", "", ""⟩ : Transaction Saturating),
          ⟨⟨-70⟩, "A", "t2", "", ""⟩].map negateAmount) "counterparty") :=
  ⟨negated_spend_eq_mirrored_revenue
      (fun a => neg_pos)
      (fun a b ha hb => add_neg ha hb)
      (fun a b _ _ => neg_add a b)
      [⟨-10, "A", "t1", "", ""⟩, ⟨4, "B", "t2", "", ""⟩, ⟨-5, "A", "t3", "", ""⟩]
      "counterparty",
    negated_spend_eq_mirrored_revenue
      Saturating.neg_pos_iff
      Saturating.add_neg_of_neg
      (fun a b _ _ => Saturating.neg_add_eq a b)
      [⟨⟨-80⟩, "A", "t1", "", ""⟩, ⟨⟨-70⟩, "A", "t2", "", ""⟩]
      "counterparty"⟩

/-! ## Properties of the client -/

/-- C5: when the response to `ListAccounts` or to `ListTransactions` has a
status code other than 200, the result is an error whose message ends with the
status text of the response, whatever the body and whatever the decoder (the
body is neither read nor decoded); a record is returned only for status 200,
and it is then the decoding of the body. -/
theorem non200_is_error {F : Type} (tr : Transport) (config : Config) :
    (∀ (unmarshal : String → Except String (AccountResponse F)) (req : Request)
        (code : Int) (status : String) (body : Except String String),
        tr.NewRequest "GET" (apiBaseURL ++ "/accounts") = .ok req →
        tr.Do (req.setHeader "Authorization" ("Bearer " ++ config.APIKey))
          = .ok ⟨code, status, body⟩ →
        code ≠ 200 →
        ListAccounts tr unmarshal config = .error ("failed to fetch accounts: " ++ status))
    ∧ (∀ (encode : Values → String)
        (unmarshal : String → Except String (TransactionResponse F)) (accountID : String)
        (params : ListTransactionsParams) (req : Request)
        (code : Int) (status : String) (body : Except String String),
        tr.NewRequest "GET" (transactionsURL encode accountID params) = .ok req →
        tr.Do (req.setHeader "Authorization" ("Bearer " ++ config.APIKey))
          = .ok ⟨code, status, body⟩ →
        code ≠ 200 →
        ListTransactions tr encode unmarshal config accountID params
          = .error ("failed to fetch transactions: " ++ status))
    ∧ (∀ (unmarshal : String → Except String (AccountResponse F)) (r : AccountResponse F),
        ListAccounts tr unmarshal config = .ok r →
        ∃ (req : Request) (resp : Response) (body : String),
          tr.Do req = .ok resp ∧ resp.StatusCode = 200 ∧ resp.Body = .ok body
            ∧ unmarshal body = .ok r)
    ∧ (∀ (encode : Values → String)
        (unmarshal : String → Except String (TransactionResponse F)) (accountID : String)
        (params : ListTransactionsParams) (r : TransactionResponse F),
        ListTransactions tr encode unmarshal config accountID params = .ok r →
        ∃ (req : Request) (resp : Response) (body : String),
          tr.Do req = .ok resp ∧ resp.StatusCode = 200 ∧ resp.Body = .ok body
            ∧ unmarshal body = .ok r) := by
  refine ⟨?_, ?_, ?_, ?_⟩
  · intro unmarshal req code status body hreq hdo hcode
    simp only [ListAccounts, hreq, hdo, ne_eq, hcode, not_false_eq_true, if_true]
  · intro encode unmarshal accountID params req code status body hreq hdo hcode
    simp only [ListTransactions, hreq, hdo, ne_eq, hcode, not_false_eq_true, if_true]
  · intro unmarshal r h
    unfold ListAccounts at h
    split at h
    · exact absurd h (by simp)
    · next req hreq =>
      simp only at h
      split at h
      · exact absurd h (by simp)
      · next resp hdo =>
        split at h
        · exact absurd h (by simp)
        · next hcode =>
          split at h
          · exact absurd h (by simp)
          · next body hbody =>
            split at h
            · exact absurd h (by simp)
            · next ar hu =>
              refine ⟨_, resp, body, hdo, not_not.mp hcode, hbody, ?_⟩
              rw [hu]
              exact h
  · intro encode unmarshal accountID params r h
    unfold ListTransactions at h
    simp only at h
    split at h
    · exact absurd h (by simp)
    · next req hreq =>
      split at h
      · exact absurd h (by simp)
      · next resp hdo =>
        split at h
        · exact absurd h (by simp)
        · next hcode =>
          split at h
          · exact absurd h (by simp)
          · next body hbody =>
            split at h
            · exact absurd h (by simp)
            · next ar hu =>
              refine ⟨_, resp, body, hdo, not_not.mp hcode, hbody, ?_⟩
              rw [hu]
              exact h

/-- Instance of C5: a 404 response to `ListAccounts` is the error carrying the
status text, although the body would decode. -/
theorem non200_is_error_witness :
    (404 : Int) ≠ 200
    ∧ ListAccounts notFoundTransport (fun _ => .ok (⟨[]⟩ : AccountResponse ℚ)) ⟨"key"⟩
      = .error ("failed to fetch accounts: " ++ "404 Not Found") :=
  ⟨by decide,
    (@non200_is_error ℚ notFoundTransport ⟨"key"⟩).1 (fun _ => .ok ⟨[]⟩)
      ⟨"GET", apiBaseURL ++ "/accounts", []⟩ 404 "404 Not Found" (.ok "\x7b\x7d")
      rfl rfl (by decide)⟩

/-- C6: the query built by `ListTransactions` has the key `limit`, `offset`,
`status`, `start`, `end` or `search` exactly when the field of that name is
present, with that field's value (integers in decimal) as its single value, and
no other key; when all six fields are absent the request URL is the
transactions path with nothing appended, and otherwise it is the path, a
question mark and the encoded query. -/
theorem query_keys_spec (params : ListTransactionsParams) :
    (transactionsQuery params).get "limit" = params.Limit.map (fun n => [fmt.decimal n])
    ∧ (transactionsQuery params).get "offset" = params.Offset.map (fun n => [fmt.decimal n])
    ∧ (transactionsQuery params).get "status" = params.Status.map (fun s => [s])
    ∧ (transactionsQuery params).get "start" = params.Start.map (fun s => [s])
    ∧ (transactionsQuery params).get "end" = params.End.map (fun s => [s])
    ∧ (transactionsQuery params).get "search" = params.Search.map (fun s => [s])
    ∧ (∀ k : String, k ≠ "limit" → k ≠ "offset" → k ≠ "status" → k ≠ "start" → k ≠ "end" →
        k ≠ "search" → (transactionsQuery params).get k = none)
    ∧ (∀ (encode : Values → String) (accountID : String),
        transactionsURL encode accountID params
          = if params.Limit = none ∧ params.Offset = none ∧ params.Status = none
                ∧ params.Start = none ∧ params.End = none ∧ params.Search = none then
              transactionsPath accountID
            else transactionsPath accountID ++ "?" ++ encode (transactionsQuery params)) := by
  obtain ⟨l, o, s, st, e, se⟩ := params
  refine ⟨?_, ?_, ?_, ?_, ?_, ?_, ?_, ?_⟩
  · cases l <;> cases o <;> cases s <;> cases st <;> cases e <;> cases se <;>
      simp [transactionsQuery, Values.Set, GoMap.get_set, GoMap.get]
  · cases l <;> cases o <;> cases s <;> cases st <;> cases e <;> cases se <;>
      simp [transactionsQuery, Values.Set, GoMap.get_set, GoMap.get]
  · cases l <;> cases o <;> cases s <;> cases st <;> cases e <;> cases se <;>
      simp [transactionsQuery, Values.Set, GoMap.get_set, GoMap.get]
  · cases l <;> cases o <;> cases s <;> cases st <;> cases e <;> cases se <;>
      simp [transactionsQuery, Values.Set, GoMap.get_set, GoMap.get]
  · cases l <;> cases o <;> cases s <;> cases st <;> cases e <;> cases se <;>
      simp [transactionsQuery, Values.Set, GoMap.get_set, GoMap.get]
  · cases l <;> cases o <;> cases s <;> cases st <;> cases e <;> cases se <;>
      simp [transactionsQuery, Values.Set, GoMap.get_set, GoMap.get]
  · intro k h1 h2 h3 h4 h5 h6
    cases l <;> cases o <;> cases s <;> cases st <;> cases e <;> cases se <;>
      simp [transactionsQuery, Values.Set, GoMap.get_set, GoMap.get, Ne.symm h1, Ne.symm h2,
        Ne.symm h3, Ne.symm h4, Ne.symm h5, Ne.symm h6]
  · intro encode accountID
    cases l <;> cases o <;> cases s <;> cases st <;> cases e <;> cases se <;>
      simp [transactionsURL, transactionsQuery, Values.Set, GoMap.set]

/-! ## The commands: fetch loop, selection, fail-fast, date check -/

/-- The two outcomes of the fetch loop: every call succeeds, all accounts are
called and their transactions appended in order; or a first call fails, the
accounts up to it are called and the error is returned. -/
theorem fetchTransactions_cases {F : Type}
    (lt : Nat → Config → String → ListTransactionsParams → Except String (TransactionResponse F))
    (config : Config) (params : ListTransactionsParams)
    (accounts : List (Account F)) (n : Nat) (txs : List (Transaction F)) :
    ((∀ (i : Nat) (a : Account F), accounts[i]? = some a →
          ∃ r, lt (n + i) config a.ID params = .ok r)
        ∧ fetchTransactions lt config params accounts n txs
          = (accounts.map (fun a => a.ID),
              .ok (txs ++ collected lt config params accounts n)))
    ∨ (∃ (j : Nat) (a : Account F) (e : String),
        accounts[j]? = some a
        ∧ lt (n + j) config a.ID params = .error e
        ∧ (∀ (i : Nat) (b : Account F), i < j → accounts[i]? = some b →
            ∃ r, lt (n + i) config b.ID params = .ok r)
        ∧ fetchTransactions lt config params accounts n txs
          = ((accounts.take (j + 1)).map (fun a => a.ID), .error e)) := by
  induction accounts generalizing n txs with
  | nil =>
    left
    refine ⟨?_, ?_⟩
    · intro i a h
      simp at h
    · simp [fetchTransactions, collected]
  | cons acc rest ih =>
    cases hlt : lt n config acc.ID params with
    | error e =>
      right
      refine ⟨0, acc, e, by simp, by simpa using hlt, ?_, ?_⟩
      · intro i b hi
        exact absurd hi (Nat.not_lt_zero i)
      · simp [fetchTransactions, hlt]
    | ok r =>
      rcases ih (n + 1) (txs ++ r.Transactions) with ⟨hall, hres⟩ | ⟨j, a, e, hj, hfail, hbefore, hres⟩
      · left
        refine ⟨?_, ?_⟩
        · intro i a hi
          cases i with
          | zero =>
            simp at hi
            subst hi
            exact ⟨r, by simpa using hlt⟩
          | succ i =>
            simp at hi
            obtain ⟨r', hr'⟩ := hall i a hi
            exact ⟨r', by rw [← hr']; congr 1; omega⟩
        · simp [fetchTransactions, hlt, hres, collected, List.append_assoc]
      · right
        refine ⟨j + 1, a, e, by simpa using hj, ?_, ?_, ?_⟩
        · rw [← hfail]; congr 1; omega
        · intro i b hi hb
          cases i with
          | zero =>
            simp at hb
            subst hb
            exact ⟨r, by simpa using hlt⟩
          | succ i =>
            simp at hb
            obtain ⟨r', hr'⟩ := hbefore i b (by omega) hb
            exact ⟨r', by rw [← hr']; congr 1; omega⟩
        · simp [fetchTransactions, hlt, hres]

theorem filter_accounts_eq {F : Type} (flag : String) (accts : List (Account F)) :
    filter accts (fun account =>
        decide (flag = "")
          || contains (if flag ≠ "" then strings.Split flag ',' else []) account.ID)
      = selection flag accts := by
  rw [filter_eq]
  unfold selection
  by_cases h : flag = ""
  · simp [h]
  · simp only [h, decide_False, Bool.false_or, ne_eq, not_false_eq_true, if_true, if_false]
    apply List.filter_congr
    intro a _
    by_cases hm : a.ID ∈ strings.Split flag ','
    · simp [hm, (contains_iff _ _).mpr hm]
    · have hc : contains (strings.Split flag ',') a.ID = false := by
        cases hcc : contains (strings.Split flag ',') a.ID with
        | false => rfl
        | true => exact absurd ((contains_iff _ _).mp hcc) hm
      simp [hm, hc]

theorem transactionCalls_mk {F : Type} (config : Config) (params : ListTransactionsParams)
    (ids : List String) (printed : List (String × F)) (fatal : Option String) :
    Run.transactionCalls
        ⟨NetCall.listAccounts config ::
          ids.map (fun accountID => NetCall.listTransactions config accountID params),
          printed, fatal⟩
      = ids := by
  unfold Run.transactionCalls
  simp only [List.filterMap_cons]
  induction ids with
  | nil => rfl
  | cons i is ih => simp only [List.map_cons, List.filterMap_cons, ih]

/-- A run that is ready for `accts` is the fetch loop over the selected
accounts followed by the pipeline and the printing. -/
theorem runReport_ready {F : Type} (pipeline : String → String → List (Transaction F) → GoMap F)
    (w : World F) (accts : List (Account F)) (hready : w.Ready accts) :
    runReport pipeline w
      = match (fetchTransactions w.ListTransactions ⟨w.resolvedKey⟩ w.dateParams
            (selection w.filterAccountsStr accts) 0 []).2 with
        | .error err =>
          ⟨NetCall.listAccounts ⟨w.resolvedKey⟩ ::
            (fetchTransactions w.ListTransactions ⟨w.resolvedKey⟩ w.dateParams
              (selection w.filterAccountsStr accts) 0 []).1.map
              (fun accountID =>
                NetCall.listTransactions ⟨w.resolvedKey⟩ accountID w.dateParams),
            [], some ("Something went wrong listing transactions for account: " ++ err)⟩
        | .ok transactions =>
          ⟨NetCall.listAccounts ⟨w.resolvedKey⟩ ::
            (fetchTransactions w.ListTransactions ⟨w.resolvedKey⟩ w.dateParams
              (selection w.filterAccountsStr accts) 0 []).1.map
              (fun accountID =>
                NetCall.listTransactions ⟨w.resolvedKey⟩ accountID w.dateParams),
            pipeline w.counterparty w.aggregate transactions, none⟩ := by
  obtain ⟨hkey, hs, he, hla⟩ := hready
  have hkey' : ¬ (if w.apiKey = "" then w.envAPIKey else w.apiKey) = "" := hkey
  have hla' : w.ListAccounts ⟨if w.apiKey = "" then w.envAPIKey else w.apiKey⟩
      = .ok ⟨accts⟩ := hla
  unfold runReport
  simp only [hkey', if_false]
  by_cases h1 : w.startDate = ""
  · by_cases h2 : w.endDate = ""
    · simp only [h1, h2, ne_eq, not_true_eq_false, if_false, hla', filter_accounts_eq,
        World.dateParams, World.resolvedKey]
    · have he' := he h2
      simp only [h1, h2, ne_eq, not_true_eq_false, not_false_eq_true, if_true, if_false, he',
        hla', filter_accounts_eq, World.dateParams, World.resolvedKey]
  · have hs' := hs h1
    by_cases h2 : w.endDate = ""
    · simp only [h1, h2, ne_eq, not_true_eq_false, not_false_eq_true, if_true, if_false, hs',
        hla', filter_accounts_eq, World.dateParams, World.resolvedKey]
    · have he' := he h2
      simp only [h1, h2, ne_eq, not_true_eq_false, not_false_eq_true, if_true, if_false, hs',
        he', hla', filter_accounts_eq, World.dateParams, World.resolvedKey]

/-- C8: when `--start-date` is non-empty and `time.Parse` rejects it, the
`spend` and the `revenue` command end with a fatal message, print nothing, and
call neither `ListAccounts` nor `ListTransactions`. -/
theorem invalid_start_date_no_call {F : Type} [Add F] [LT F] [OfNat F 0]
    [(a b : F) → Decidable (a < b)] (w : World F) (e : String)
    (hne : w.startDate ≠ "")
    (hbad : w.timeParse "2006-01-02" w.startDate = .error e) :
    ((spendCmd w).calls = [] ∧ (spendCmd w).accountCalls = 0
        ∧ (spendCmd w).transactionCalls = [] ∧ (spendCmd w).printed = []
        ∧ (spendCmd w).fatal.isSome = true)
    ∧ ((revenueCmd w).calls = [] ∧ (revenueCmd w).accountCalls = 0
        ∧ (revenueCmd w).transactionCalls = [] ∧ (revenueCmd w).printed = []
        ∧ (revenueCmd w).fatal.isSome = true)
    ∧ (w.resolvedKey ≠ "" →
        (spendCmd w).fatal = some "Invalid start date format. Please use YYYY-MM-DD."
          ∧ (revenueCmd w).fatal
            = some "Invalid start date format. Please use YYYY-MM-DD.") := by
  have key : ∀ pipeline : String → String → List (Transaction F) → GoMap F,
      (runReport pipeline w).calls = [] ∧ (runReport pipeline w).printed = []
        ∧ (runReport pipeline w).fatal.isSome = true
        ∧ (w.resolvedKey ≠ "" → (runReport pipeline w).fatal
            = some "Invalid start date format. Please use YYYY-MM-DD.") := by
    intro pipeline
    unfold runReport World.resolvedKey
    by_cases hk : (if w.apiKey = "" then w.envAPIKey else w.apiKey) = ""
    · simp only [hk, if_true, Option.isSome_some, ne_eq, not_true_eq_false, false_imp_iff,
        and_self]
    · simp only [hk, if_false, ne_eq, hne, not_false_eq_true, if_true, hbad,
        Option.isSome_some, imp_self, and_self]
  have hs := key spendAggregate
  have hr := key revenueAggregate
  refine ⟨⟨hs.1, ?_, ?_, hs.2.1, hs.2.2.1⟩, ⟨hr.1, ?_, ?_, hr.2.1, hr.2.2.1⟩, ?_⟩
  · unfold Run.accountCalls spendCmd
    rw [hs.1]
    rfl
  · unfold Run.transactionCalls spendCmd
    rw [hs.1]
    rfl
  · unfold Run.accountCalls revenueCmd
    rw [hr.1]
    rfl
  · unfold Run.transactionCalls revenueCmd
    rw [hr.1]
    rfl
  · intro hk
    exact ⟨hs.2.2.2 hk, hr.2.2.2 hk⟩

/-- Instance of C8: the start date `2024-13-40` is rejected and `spend` makes
no client call. -/
theorem invalid_start_date_no_call_witness :
    badDateWorld.startDate ≠ ""
    ∧ badDateWorld.timeParse "2006-01-02" badDateWorld.startDate
      = .error "month out of range"
    ∧ (spendCmd badDateWorld).calls = [] :=
  ⟨by decide, rfl,
    (invalid_start_date_no_call badDateWorld "month out of range" (by decide) rfl).1.1⟩

theorem failingWorld_ready : failingWorld.Ready twoAccounts :=
  ⟨by decide, fun h => absurd rfl h, fun h => absurd rfl h, rfl⟩

theorem oneOfTwoWorld_ready : oneOfTwoWorld.Ready twoAccounts :=
  ⟨by decide, fun h => absurd rfl h, fun h => absurd rfl h, rfl⟩

/-- C3 fails as stated: with an empty `--accounts` flag and the accounts
`acct1`, `acct2` returned by `ListAccounts`, a failing first call leaves
`ListTransactions` called for `acct1` only, not for the whole account list. -/
theorem fetch_stops_before_all_selected :
    failingWorld.Ready twoAccounts
    ∧ failingWorld.filterAccountsStr = ""
    ∧ (spendCmd failingWorld).transactionCalls = ["acct1"]
    ∧ (revenueCmd failingWorld).transactionCalls = ["acct1"]
    ∧ (spendCmd failingWorld).transactionCalls ≠ twoAccounts.map (fun a => a.ID)
    ∧ (revenueCmd failingWorld).transactionCalls ≠ twoAccounts.map (fun a => a.ID) := by
  exact ⟨failingWorld_ready, rfl, by decide, by decide, by decide, by decide⟩

theorem runReport_success {F : Type} (pipeline : String → String → List (Transaction F) → GoMap F)
    (w : World F) (accts : List (Account F)) (hready : w.Ready accts)
    (hok : ∀ (i : Nat) (a : Account F), (selection w.filterAccountsStr accts)[i]? = some a →
      ∃ r, w.ListTransactions i ⟨w.resolvedKey⟩ a.ID w.dateParams = .ok r) :
    (runReport pipeline w).transactionCalls
        = (selection w.filterAccountsStr accts).map (fun a => a.ID)
    ∧ (runReport pipeline w).printed
        = pipeline w.counterparty w.aggregate
            (collected w.ListTransactions ⟨w.resolvedKey⟩ w.dateParams
              (selection w.filterAccountsStr accts) 0)
    ∧ (runReport pipeline w).fatal = none := by
  rw [runReport_ready pipeline w accts hready]
  rcases fetchTransactions_cases w.ListTransactions ⟨w.resolvedKey⟩ w.dateParams
      (selection w.filterAccountsStr accts) 0 [] with
    ⟨_, hres⟩ | ⟨j, a, e, hj, hfail, _, _⟩
  · rw [hres]
    simp only [transactionCalls_mk, List.nil_append, and_self]
  · obtain ⟨r, hr⟩ := hok j a hj
    rw [Nat.zero_add] at hfail
    rw [hfail] at hr
    exact absurd hr (by simp)

theorem runReport_failure {F : Type} (pipeline : String → String → List (Transaction F) → GoMap F)
    (w : World F) (accts : List (Account F)) (hready : w.Ready accts)
    (hbad : ∃ (i : Nat) (a : Account F) (e : String),
      (selection w.filterAccountsStr accts)[i]? = some a
        ∧ w.ListTransactions i ⟨w.resolvedKey⟩ a.ID w.dateParams = .error e) :
    ∃ (j : Nat) (a : Account F) (e : String),
      (selection w.filterAccountsStr accts)[j]? = some a
      ∧ w.ListTransactions j ⟨w.resolvedKey⟩ a.ID w.dateParams = .error e
      ∧ (∀ (i : Nat) (b : Account F), i < j →
          (selection w.filterAccountsStr accts)[i]? = some b →
          ∃ r, w.ListTransactions i ⟨w.resolvedKey⟩ b.ID w.dateParams = .ok r)
      ∧ (runReport pipeline w).transactionCalls
          = ((selection w.filterAccountsStr accts).take (j + 1)).map (fun a => a.ID)
      ∧ (runReport pipeline w).printed = []
      ∧ (runReport pipeline w).fatal
          = some ("Something went wrong listing transactions for account: " ++ e) := by
  rw [runReport_ready pipeline w accts hready]
  rcases fetchTransactions_cases w.ListTransactions ⟨w.resolvedKey⟩ w.dateParams
      (selection w.filterAccountsStr accts) 0 [] with
    ⟨hall, _⟩ | ⟨j, a, e, hj, hfail, hbefore, hres⟩
  · obtain ⟨i, a, e, hi, he⟩ := hbad
    obtain ⟨r, hr⟩ := hall i a hi
    rw [Nat.zero_add] at hr
    rw [hr] at he
    exact absurd he (by simp)
  · refine ⟨j, a, e, hj, by simpa using hfail, ?_, ?_⟩
    · intro i b hi hb
      simpa using hbefore i b hi hb
    · rw [hres]
      simp only [transactionCalls_mk, and_self]

theorem take_map_initial {F : Type} (sel : List (Account F)) (j : Nat) :
    (sel.take j).map (fun a => a.ID) <+: sel.map (fun a => a.ID) := by
  rw [List.map_take]
  exact List.take_prefix j _

/-- C3, amended: on a run that gets the account list `accts` from
`ListAccounts`, the account IDs for which `spend` and `revenue` call
`ListTransactions` are a prefix of the sub-sequence selected by the
`--accounts` flag (all accounts when the flag is empty, else those whose ID is
an element of the flag split on commas); when each of these calls succeeds they
are exactly that sub-sequence, and the transactions aggregated are those of
their answers, in order. -/
theorem selected_accounts_fetched {F : Type} [Add F] [LT F] [OfNat F 0]
    [(a b : F) → Decidable (a < b)] (w : World F) (accts : List (Account F))
    (hready : w.Ready accts) :
    ((spendCmd w).transactionCalls <+: (selection w.filterAccountsStr accts).map (fun a => a.ID)
      ∧ (revenueCmd w).transactionCalls
          <+: (selection w.filterAccountsStr accts).map (fun a => a.ID))
    ∧ ((∀ (i : Nat) (a : Account F), (selection w.filterAccountsStr accts)[i]? = some a →
          ∃ r, w.ListTransactions i ⟨w.resolvedKey⟩ a.ID w.dateParams = .ok r) →
        (spendCmd w).transactionCalls
            = (selection w.filterAccountsStr accts).map (fun a => a.ID)
        ∧ (revenueCmd w).transactionCalls
            = (selection w.filterAccountsStr accts).map (fun a => a.ID)
        ∧ (spendCmd w).printed
            = spendAggregate w.counterparty w.aggregate
                (collected w.ListTransactions ⟨w.resolvedKey⟩ w.dateParams
                  (selection w.filterAccountsStr accts) 0)
        ∧ (revenueCmd w).printed
            = revenueAggregate w.counterparty w.aggregate
                (collected w.ListTransactions ⟨w.resolvedKey⟩ w.dateParams
                  (selection w.filterAccountsStr accts) 0)) := by
  have hpre : ∀ pipeline : String → String → List (Transaction F) → GoMap F,
      (runReport pipeline w).transactionCalls
        <+: (selection w.filterAccountsStr accts).map (fun a => a.ID) := by
    intro pipeline
    by_cases hbad : ∃ (i : Nat) (a : Account F) (e : String),
        (selection w.filterAccountsStr accts)[i]? = some a
          ∧ w.ListTransactions i ⟨w.resolvedKey⟩ a.ID w.dateParams = .error e
    · obtain ⟨j, _, _, _, _, _, hcalls, _⟩ := runReport_failure pipeline w accts hready hbad
      rw [hcalls]
      exact take_map_initial _ _
    · have hok : ∀ (i : Nat) (a : Account F),
          (selection w.filterAccountsStr accts)[i]? = some a →
          ∃ r, w.ListTransactions i ⟨w.resolvedKey⟩ a.ID w.dateParams = .ok r := by
        intro i a hi
        cases hr : w.ListTransactions i ⟨w.resolvedKey⟩ a.ID w.dateParams with
        | ok r => exact ⟨r, rfl⟩
        | error e => exact absurd ⟨i, a, e, hi, hr⟩ hbad
      rw [(runReport_success pipeline w accts hready hok).1]
  refine ⟨⟨hpre spendAggregate, hpre revenueAggregate⟩, ?_⟩
  intro hok
  have hs := runReport_success spendAggregate w accts hready hok
  have hr := runReport_success revenueAggregate w accts hready hok
  exact ⟨hs.1, hr.1, hs.2.1, hr.2.1⟩

/-- Instance of the amended C3: with the flag `acct1` and the accounts `acct1`,
`acct2`, only `acct1` is fetched and only its transactions are aggregated. -/
theorem selected_accounts_fetched_witness :
    oneOfTwoWorld.Ready twoAccounts
    ∧ selection oneOfTwoWorld.filterAccountsStr twoAccounts
        = [⟨"acct1", "Checking", "active", "checking", 0, 0⟩]
    ∧ (spendCmd oneOfTwoWorld).transactionCalls
        = (selection oneOfTwoWorld.filterAccountsStr twoAccounts).map (fun a => a.ID) :=
  ⟨oneOfTwoWorld_ready, by decide,
    ((selected_accounts_fetched oneOfTwoWorld twoAccounts oneOfTwoWorld_ready).2
      (fun _ _ _ => ⟨_, rfl⟩)).1⟩

/-- C7: on a run of `spend` or `revenue` that reaches the fetch loop, if the
`ListTransactions` call fails for some selected account then there is a first
failing account, the calls made are those for the selected accounts up to and
including it, no aggregate line is printed and the run ends with the fatal
message of that error; aggregate lines are printed only when the call succeeded
for every selected account. -/
theorem fetch_failure_aborts {F : Type} [Add F] [LT F] [OfNat F 0]
    [(a b : F) → Decidable (a < b)] (w : World F) (accts : List (Account F)) (hready : w.Ready accts) :
    ((∃ (i : Nat) (a : Account F) (e : String),
        (selection w.filterAccountsStr accts)[i]? = some a
          ∧ w.ListTransactions i ⟨w.resolvedKey⟩ a.ID w.dateParams = .error e) →
      ∃ (j : Nat) (a : Account F) (e : String),
        (selection w.filterAccountsStr accts)[j]? = some a
        ∧ w.ListTransactions j ⟨w.resolvedKey⟩ a.ID w.dateParams = .error e
        ∧ (∀ (i : Nat) (b : Account F), i < j →
            (selection w.filterAccountsStr accts)[i]? = some b →
            ∃ r, w.ListTransactions i ⟨w.resolvedKey⟩ b.ID w.dateParams = .ok r)
        ∧ ((spendCmd w).transactionCalls
              = ((selection w.filterAccountsStr accts).take (j + 1)).map (fun a => a.ID)
            ∧ (spendCmd w).printed = []
            ∧ (spendCmd w).fatal
              = some ("Something went wrong listing transactions for account: " ++ e))
        ∧ ((revenueCmd w).transactionCalls
              = ((selection w.filterAccountsStr accts).take (j + 1)).map (fun a => a.ID)
            ∧ (revenueCmd w).printed = []
            ∧ (revenueCmd w).fatal
              = some ("Something went wrong listing transactions for account: " ++ e)))
    ∧ ((spendCmd w).printed ≠ [] ∨ (revenueCmd w).printed ≠ [] →
        ∀ (i : Nat) (a : Account F), (selection w.filterAccountsStr accts)[i]? = some a →
          ∃ r, w.ListTransactions i ⟨w.resolvedKey⟩ a.ID w.dateParams = .ok r) := by
  constructor
  · intro hbad
    obtain ⟨j, a, e, hj, hfail, hbefore, hs⟩ :=
      runReport_failure spendAggregate w accts hready hbad
    obtain ⟨j', a', e', hj', hfail', hbefore', hr⟩ :=
      runReport_failure revenueAggregate w accts hready hbad
    have hjj : j' = j := by
      rcases Nat.lt_trichotomy j' j with h | h | h
      · obtain ⟨r, hr'⟩ := hbefore j' a' h hj'
        rw [hr'] at hfail'
        exact absurd hfail' (by simp)
      · exact h
      · obtain ⟨r, hr'⟩ := hbefore' j a h hj
        rw [hr'] at hfail
        exact absurd hfail (by simp)
    subst hjj
    have haa : a' = a := by
      rw [hj] at hj'
      exact (Option.some.inj hj').symm
    subst haa
    have hee : e' = e := by
      rw [hfail] at hfail'
      exact (Except.error.inj hfail').symm
    subst hee
    exact ⟨j', a', e', hj, hfail, hbefore, hs, hr⟩
  · intro hprinted i a hi
    cases hres : w.ListTransactions i ⟨w.resolvedKey⟩ a.ID w.dateParams with
    | ok r => exact ⟨r, rfl⟩
    | error e =>
      exfalso
      have hbad : ∃ (i : Nat) (a : Account F) (e : String),
          (selection w.filterAccountsStr accts)[i]? = some a
            ∧ w.ListTransactions i ⟨w.resolvedKey⟩ a.ID w.dateParams = .error e :=
        ⟨i, a, e, hi, hres⟩
      rcases hprinted with hp | hp
      · obtain ⟨_, _, _, _, _, _, _, hnil, _⟩ :=
          runReport_failure spendAggregate w accts hready hbad
        exact hp hnil
      · obtain ⟨_, _, _, _, _, _, _, hnil, _⟩ :=
          runReport_failure revenueAggregate w accts hready hbad
        exact hp hnil

/-- Instance of C7: in the world where every fetch fails, `spend` prints no
aggregate line and stops after the call for `acct1`. -/
theorem fetch_failure_aborts_witness :
    failingWorld.Ready twoAccounts
    ∧ (∃ (i : Nat) (a : Account ℚ) (e : String),
        (selection failingWorld.filterAccountsStr twoAccounts)[i]? = some a
          ∧ failingWorld.ListTransactions i ⟨failingWorld.resolvedKey⟩ a.ID
              failingWorld.dateParams = .error e)
    ∧ (spendCmd failingWorld).printed = []
    ∧ (spendCmd failingWorld).transactionCalls = ["acct1"] :=
  have hbad : ∃ (i : Nat) (a : Account ℚ) (e : String),
      (selection failingWorld.filterAccountsStr twoAccounts)[i]? = some a
        ∧ failingWorld.ListTransactions i ⟨failingWorld.resolvedKey⟩ a.ID
            failingWorld.dateParams = .error e :=
    ⟨0, ⟨"acct1", "Checking", "active", "checking", 0, 0⟩, "connection refused", rfl, rfl⟩
  ⟨failingWorld_ready, hbad,
    match (fetch_failure_aborts failingWorld twoAccounts failingWorld_ready).1 hbad with
    | ⟨_, _, _, _, _, _, hs, _⟩ => hs.2.1,
    by decide⟩

/-- Instance of C6: with only the start date present, the query has the key
`start` and no key `limit`, and an unrelated key is absent. -/
theorem query_keys_spec_witness :
    (transactionsQuery ⟨none, none, none, some "2024-01-01", none, none⟩).get "start"
      = some ["2024-01-01"]
    ∧ (transactionsQuery ⟨none, none, none, some "2024-01-01", none, none⟩).get "limit" = none
    ∧ (transactionsQuery ⟨none, none, none, some "2024-01-01", none, none⟩).get "page" = none :=
  ⟨(query_keys_spec ⟨none, none, none, some "2024-01-01", none, none⟩).2.2.2.1,
    (query_keys_spec ⟨none, none, none, some "2024-01-01", none, none⟩).1,
    (query_keys_spec ⟨none, none, none, some "2024-01-01", none, none⟩).2.2.2.2.2.2.1 "page"
      (by decide) (by decide) (by decide) (by decide) (by decide) (by decide)⟩
